import Mathlib

/-!
Verification of `llmfoundry/models/layers/norm.py`: a shallow embedding of the
normalization layers (LPLayerNorm, rms_norm, RMSNorm, LPRMSNorm, the
autocast-casting helper and the norm-class registry) together with theorems
about the spec's claims.

Modelling conventions:
* A tensor is a record of a shape, a dtype tag, a device tag and its values,
  stored as a list of slices along the last axis (`rows`); the shape is
  `lead ++ [lastDim]`, `rows.length` is the product of `lead` and each row has
  length `lastDim`.
* Scalar values live in an arbitrary field `α` (instantiated at `ℚ` for
  executable witnesses and at `ℝ` for numerical bounds).  `torch.rsqrt` is a
  parameter `rsqrt : α → α`; the value effect of a dtype cast is a parameter
  `rnd : DType → α → α` (rounding to the target precision).  Arithmetic itself
  is exact; precision is tracked by the dtype tags.
* Ambient runtime state (`torch.is_autocast_enabled`, the autocast gpu/cpu
  dtypes, `pjrt.using_pjrt`) is an explicit context record `TorchCtx`.
* Fallible code (`raise NotImplementedError`, shape errors of the tensor
  library) returns `Except TorchErr`.
-/

/-- Floating dtypes that occur in this file's precision policy. -/
inductive DType where
  | float16
  | bfloat16
  | float32
deriving DecidableEq, Repr

/-- `tensor.device.type`: the device-type string of a tensor, with the two
classes the code distinguishes (`'cuda'`, `'cpu'`) and any other string. -/
inductive DeviceType where
  | cuda
  | cpu
  | other (name : String)
deriving DecidableEq, Repr

/-- Torch's type-promotion rule restricted to the dtypes of `DType`:
equal dtypes stay, `float32` dominates, and `float16` with `bfloat16`
promotes to `float32`. -/
def promote : DType → DType → DType
  | .float32, _ => .float32
  | _, .float32 => .float32
  | .float16, .float16 => .float16
  | .bfloat16, .bfloat16 => .bfloat16
  | _, _ => .float32

/-- A tensor: shape `lead ++ [lastDim]`, values as the list of slices along
the last axis, plus the dtype and device tags the casting policy reads. -/
structure Tensor (α : Type) where
  shape : List Nat
  dtype : DType
  device : DeviceType
  rows : List (List α)
deriving DecidableEq, Repr

/-- Errors the embedded code can raise: the `NotImplementedError` of the
casting helper, and shape mismatches raised by the tensor library. -/
inductive TorchErr where
  | notImplemented
  | shapeMismatch
deriving DecidableEq, Repr

/-- Ambient runtime state consulted by the layers: `torch.is_autocast_enabled`,
`torch.get_autocast_gpu_dtype`, `torch.get_autocast_cpu_dtype`, and
`pjrt.using_pjrt`. -/
structure TorchCtx where
  autocastEnabled : Bool
  autocastGpuDtype : DType
  autocastCpuDtype : DType
  usingPjrt : Bool
deriving DecidableEq, Repr

namespace Tensor

variable {α : Type} [Field α]

/-- `tensor.to(dtype=d)`: retag the dtype and round every value to the target
precision (`rnd` is the host runtime's rounding for that dtype). -/
def toDtype (rnd : DType → α → α) (t : Tensor α) (d : DType) : Tensor α :=
  { t with dtype := d, rows := t.rows.map (List.map (rnd d)) }

/-- `x.pow(2)`: elementwise square; shape, dtype and device unchanged. -/
def pow2 (t : Tensor α) : Tensor α :=
  { t with rows := t.rows.map (List.map (fun v => v * v)) }

/-- `x.mean(-1, keepdim=True)`: per-slice mean along the last axis, keeping
that axis with size 1. -/
def meanLastKeepdim (t : Tensor α) : Tensor α :=
  { t with shape := t.shape.dropLast ++ [1],
           rows := t.rows.map (fun r => [r.sum / (r.length : α)]) }

/-- `tensor + eps` for a python scalar `eps`: elementwise add, dtype kept. -/
def addScalar (t : Tensor α) (eps : α) : Tensor α :=
  { t with rows := t.rows.map (List.map (fun v => v + eps)) }

/-- `torch.rsqrt(tensor)`: elementwise reciprocal square root, via the scalar
parameter `rsqrt`. -/
def rsqrtT (rsqrt : α → α) (t : Tensor α) : Tensor α :=
  { t with rows := t.rows.map (List.map rsqrt) }

/-- `a * b` with the broadcasting patterns the file uses: identical shapes;
`b` with the same leading dims and a trailing axis of size 1 (the
`rsqrt(mean..)` factor); or a one-dimensional `b` matching the last axis (the
learnable weight).  Any other shape pair raises, as the host runtime would.
The result promotes the two dtypes and keeps `a`'s shape and device. -/
def mul (a b : Tensor α) : Except TorchErr (Tensor α) :=
  if b.shape = a.shape then
    .ok { shape := a.shape, dtype := promote a.dtype b.dtype, device := a.device,
          rows := List.zipWith (fun r s => List.zipWith (fun u v => u * v) r s) a.rows b.rows }
  else if b.shape = a.shape.dropLast ++ [1] then
    .ok { shape := a.shape, dtype := promote a.dtype b.dtype, device := a.device,
          rows := List.zipWith (fun r s => r.map (fun u => u * s.headD 0)) a.rows b.rows }
  else if b.shape = [a.shape.getLastD 0] then
    .ok { shape := a.shape, dtype := promote a.dtype b.dtype, device := a.device,
          rows := a.rows.map (fun r => List.zipWith (fun u v => u * v) r (b.rows.headD [])) }
  else
    .error .shapeMismatch

end Tensor

/-- `_cast_if_autocast_enabled(tensor)`: if autocast is enabled, cast to the
autocast gpu dtype on a `'cuda'` device, to the autocast cpu dtype on a
`'cpu'` device, and raise `NotImplementedError` on any other device; if
autocast is not enabled, return the tensor itself. -/
def _cast_if_autocast_enabled {α : Type} [Field α] (rnd : DType → α → α)
    (ctx : TorchCtx) (tensor : Tensor α) : Except TorchErr (Tensor α) :=
  if ctx.autocastEnabled then
    if tensor.device = .cuda then
      .ok (tensor.toDtype rnd ctx.autocastGpuDtype)
    else if tensor.device = .cpu then
      .ok (tensor.toDtype rnd ctx.autocastCpuDtype)
    else
      .error .notImplemented
  else
    .ok tensor

/-- `rms_norm(x, weight, eps)`:
`output = x * torch.rsqrt(x.pow(2).mean(-1, keepdim=True) + eps)`, then
`output * weight` when a weight is supplied, else `output`. -/
def rms_norm {α : Type} [Field α] (rsqrt : α → α)
    (x : Tensor α) (weight : Option (Tensor α)) (eps : α) :
    Except TorchErr (Tensor α) := do
  let output ← x.mul (((x.pow2.meanLastKeepdim).addScalar eps).rsqrtT rsqrt)
  match weight with
  | some w => output.mul w
  | none => pure output

/-- The spec's formula for 4.3, written from the spec's words:
`x * rsqrt(mean(x^2, last_axis, keepdim=True) + eps)`, multiplied elementwise
by the weight when one is supplied, and exactly the unscaled expression when
the weight is absent. -/
def rmsNormSpec {α : Type} [Field α] (rsqrt : α → α) (x : Tensor α)
    (weight : Option (Tensor α)) (eps : α) : Except TorchErr (Tensor α) :=
  let unscaled := x.mul ((x.pow2.meanLastKeepdim.addScalar eps).rsqrtT rsqrt)
  match weight with
  | some w => unscaled.bind (fun t => t.mul w)
  | none => unscaled

/-- State of an `RMSNorm` / `LPRMSNorm` module: the epsilon fixed at
construction and the optional learnable weight parameter. -/
structure RMSState (α : Type) where
  eps : α
  weight : Option (Tensor α)
deriving DecidableEq, Repr

/-- State of a `LayerNorm` / `LPLayerNorm` module: the normalized-shape
descriptor, epsilon, and the optional weight and bias parameters. -/
structure LNState (α : Type) where
  normalized_shape : List Nat
  eps : α
  weight : Option (Tensor α)
  bias : Option (Tensor α)
deriving DecidableEq, Repr

/-- Modelled from the spec: the type of `torch.nn.functional.layer_norm`, the
standard normalization primitive, which is a host-runtime collaborator whose
code is outside this file.  It receives the ambient context (so an explicit
suppression of autocast around the call is observable), the input, the
normalized-shape descriptor, the optional weight and bias, and eps. -/
def LayerNormPrim (α : Type) : Type :=
  TorchCtx → Tensor α → List Nat → Option (Tensor α) → Option (Tensor α) → α → Tensor α

/-- `_cast_if_autocast_enabled(p) if p is not None else p`: the inline pattern
the two low-precision forwards use on their optional weight and bias. -/
def castOpt {α : Type} [Field α] (rnd : DType → α → α) (ctx : TorchCtx) :
    Option (Tensor α) → Except TorchErr (Option (Tensor α))
  | some p => Except.map some (_cast_if_autocast_enabled rnd ctx p)
  | none => pure none

/-- `LPLayerNorm.forward(x)`: under pjrt, call the primitive directly with the
stored weight, bias and eps; otherwise cast `x`, the weight (if present) and
the bias (if present) with `_cast_if_autocast_enabled` and call the primitive
on the casted values inside `torch.autocast(enabled=False)`. -/
def LPLayerNorm.forward {α : Type} [Field α] (F : LayerNormPrim α)
    (rnd : DType → α → α) (ctx : TorchCtx) (st : LNState α) (x : Tensor α) :
    Except TorchErr (Tensor α) :=
  if ctx.usingPjrt then
    .ok (F ctx x st.normalized_shape st.weight st.bias st.eps)
  else do
    let downcast_x ← _cast_if_autocast_enabled rnd ctx x
    let downcast_weight ← castOpt rnd ctx st.weight
    let downcast_bias ← castOpt rnd ctx st.bias
    pure (F { ctx with autocastEnabled := false } downcast_x st.normalized_shape
            downcast_weight downcast_bias st.eps)

/-- `RMSNorm.forward(x)`: under pjrt, `rms_norm(x, weight, eps).to(x.dtype)`;
otherwise `rms_norm(x.float(), weight, eps).to(x.dtype)`. -/
def RMSNorm.forward {α : Type} [Field α] (rsqrt : α → α) (rnd : DType → α → α)
    (ctx : TorchCtx) (st : RMSState α) (x : Tensor α) :
    Except TorchErr (Tensor α) :=
  if ctx.usingPjrt then
    Except.map (fun t => t.toDtype rnd x.dtype) (rms_norm rsqrt x st.weight st.eps)
  else
    Except.map (fun t => t.toDtype rnd x.dtype)
      (rms_norm rsqrt (x.toDtype rnd .float32) st.weight st.eps)

/-- `LPRMSNorm.forward(x)`: under pjrt, the same fast path as `RMSNorm`;
otherwise cast `x` and the weight (if present) with
`_cast_if_autocast_enabled`, run `rms_norm` on the casted values inside
`torch.autocast(enabled=False)` (the core consults no autocast state, so the
suppression changes nothing further here), and cast back to `x.dtype`. -/
def LPRMSNorm.forward {α : Type} [Field α] (rsqrt : α → α) (rnd : DType → α → α)
    (ctx : TorchCtx) (st : RMSState α) (x : Tensor α) :
    Except TorchErr (Tensor α) :=
  if ctx.usingPjrt then
    Except.map (fun t => t.toDtype rnd x.dtype) (rms_norm rsqrt x st.weight st.eps)
  else do
    let downcast_x ← _cast_if_autocast_enabled rnd ctx x
    let downcast_weight ← castOpt rnd ctx st.weight
    Except.map (fun t => t.toDtype rnd x.dtype)
      (rms_norm rsqrt downcast_x downcast_weight st.eps)

/-- Modelled from the spec: the registry's `layernorm` entry is
`torch.nn.LayerNorm` itself, a pass-through to the host runtime's standard
normalization primitive with the module's stored weight, bias and eps. -/
def LayerNorm.forward {α : Type} [Field α] (F : LayerNormPrim α)
    (ctx : TorchCtx) (st : LNState α) (x : Tensor α) :
    Except TorchErr (Tensor α) :=
  .ok (F ctx x st.normalized_shape st.weight st.bias st.eps)

/-- The four constructible layer types of `NORM_CLASS_REGISTRY`. -/
inductive NormVariant where
  | layernorm
  | low_precision_layernorm
  | rmsnorm
  | low_precision_rmsnorm
deriving DecidableEq, Repr

/-- `NORM_CLASS_REGISTRY`: the static name-to-implementation mapping. -/
def NORM_CLASS_REGISTRY : List (String × NormVariant) :=
  [("layernorm", .layernorm),
   ("low_precision_layernorm", .low_precision_layernorm),
   ("rmsnorm", .rmsnorm),
   ("low_precision_rmsnorm", .low_precision_rmsnorm)]

/-- Dispatch `forward` through a registry variant.  LayerNorm variants read
the full `LNState`; the RMSNorm variants store only eps and weight. -/
def normForward {α : Type} [Field α] (v : NormVariant) (F : LayerNormPrim α)
    (rsqrt : α → α) (rnd : DType → α → α) (ctx : TorchCtx) (st : LNState α)
    (x : Tensor α) : Except TorchErr (Tensor α) :=
  match v with
  | .layernorm => LayerNorm.forward F ctx st x
  | .low_precision_layernorm => LPLayerNorm.forward F rnd ctx st x
  | .rmsnorm => RMSNorm.forward rsqrt rnd ctx ⟨st.eps, st.weight⟩ x
  | .low_precision_rmsnorm => LPRMSNorm.forward rsqrt rnd ctx ⟨st.eps, st.weight⟩ x

/-- Concrete context with autocast enabled and pjrt inactive. -/
def ctxAC : TorchCtx := ⟨true, .float16, .bfloat16, false⟩

/-- Concrete context with autocast disabled and pjrt inactive. -/
def ctxNoAC : TorchCtx := ⟨false, .float16, .bfloat16, false⟩

/-- Identity rounding: casts keep values exactly (exact-arithmetic reading). -/
def exactRnd : DType → ℚ → ℚ := fun _ a => a

/-- A concrete rational tensor on a `'cuda'` device. -/
def tCuda : Tensor ℚ := ⟨[2], .float32, .cuda, [[1, 2]]⟩

/-- A concrete rational tensor on an `'xla'` device (neither cuda nor cpu). -/
def tXla : Tensor ℚ := ⟨[2], .float32, .other "xla", [[1, 2]]⟩

/-- A concrete float16 cpu tensor used by witnesses. -/
def tF16 : Tensor ℚ := ⟨[2], .float16, .cpu, [[3, 4]]⟩

/-- A pass-through primitive standing in for layer_norm in witnesses. -/
def Fid : LayerNormPrim ℚ := fun _ x _ _ _ _ => x

/-- A concrete float16 weight of shape `[2]` used by witnesses. -/
def wF16 : Tensor ℚ := ⟨[2], .float16, .cpu, [[2, 3]]⟩

/-- Retag a tensor's dtype, leaving its values untouched. -/
def Tensor.retag {α : Type} (t : Tensor α) (d : DType) : Tensor α :=
  { t with dtype := d }

section Lemmas

variable {α : Type} [Field α]

omit [Field α] in
theorem Tensor.toDtype_dtype (rnd : DType → α → α) (t : Tensor α) (d : DType) :
    (t.toDtype rnd d).dtype = d := rfl

omit [Field α] in
theorem Tensor.toDtype_shape (rnd : DType → α → α) (t : Tensor α) (d : DType) :
    (t.toDtype rnd d).shape = t.shape := rfl

theorem Tensor.mul_ok_shape {a b y : Tensor α} (h : a.mul b = .ok y) :
    y.shape = a.shape := by
  unfold Tensor.mul at h
  split at h
  · cases h; rfl
  · split at h
    · cases h; rfl
    · split at h
      · cases h; rfl
      · cases h

theorem Tensor.mul_ok_dtype {a b y : Tensor α} (h : a.mul b = .ok y) :
    y.dtype = promote a.dtype b.dtype := by
  unfold Tensor.mul at h
  split at h
  · cases h; rfl
  · split at h
    · cases h; rfl
    · split at h
      · cases h; rfl
      · cases h

theorem rms_norm_ok_shape {rsqrt : α → α} {x : Tensor α}
    {weight : Option (Tensor α)} {eps : α} {y : Tensor α}
    (h : rms_norm rsqrt x weight eps = .ok y) : y.shape = x.shape := by
  unfold rms_norm at h
  cases hm : x.mul (((x.pow2.meanLastKeepdim).addScalar eps).rsqrtT rsqrt) with
  | error e => rw [hm] at h; cases h
  | ok out =>
    rw [hm] at h
    cases weight with
    | none => cases h; exact Tensor.mul_ok_shape hm
    | some w =>
      simp only [Except.bind] at h
      exact (Tensor.mul_ok_shape h).trans (Tensor.mul_ok_shape hm)

end Lemmas

/-- C1: for every input tensor `x`, every optional weight and every `eps`,
`rms_norm(x, weight, eps)` equals
`x * rsqrt(mean(x^2, last_axis, keepdim=True) + eps)`, multiplied elementwise
by the weight when it is present, and exactly the unscaled formula when the
weight is absent. -/
theorem C1_rms_norm_matches_spec_formula {α : Type} [Field α] (rsqrt : α → α)
    (x : Tensor α) (weight : Option (Tensor α)) (eps : α) :
    rms_norm rsqrt x weight eps = rmsNormSpec rsqrt x weight eps := by
  unfold rms_norm rmsNormSpec
  cases weight with
  | some w => rfl
  | none =>
    cases x.mul (((x.pow2.meanLastKeepdim).addScalar eps).rsqrtT rsqrt) <;> rfl

/-- C3: for every tensor `t`, `_cast_if_autocast_enabled` returns `t` itself
when autocast is inactive; when autocast is active it returns `t` cast to the
autocast gpu dtype on a `'cuda'` device, `t` cast to the autocast cpu dtype on
a `'cpu'` device, and raises `NotImplementedError` on any other device. -/
theorem C3_cast_helper_cases {α : Type} [Field α] (rnd : DType → α → α)
    (ctx : TorchCtx) (t : Tensor α) :
    (ctx.autocastEnabled = false →
      _cast_if_autocast_enabled rnd ctx t = .ok t) ∧
    (ctx.autocastEnabled = true → t.device = .cuda →
      _cast_if_autocast_enabled rnd ctx t =
        .ok (t.toDtype rnd ctx.autocastGpuDtype)) ∧
    (ctx.autocastEnabled = true → t.device = .cpu →
      _cast_if_autocast_enabled rnd ctx t =
        .ok (t.toDtype rnd ctx.autocastCpuDtype)) ∧
    (ctx.autocastEnabled = true → t.device ≠ .cuda → t.device ≠ .cpu →
      _cast_if_autocast_enabled rnd ctx t = .error .notImplemented) := by
  unfold _cast_if_autocast_enabled
  refine ⟨fun h => by simp [h], fun h hd => by simp [h, hd],
    fun h hd => by simp [h, hd], fun h hd hd2 => by simp [h, hd, hd2]⟩

/-- C3 witness: with autocast active, a cuda tensor is cast to the autocast
gpu dtype. -/
theorem C3_witness :
    _cast_if_autocast_enabled exactRnd ctxAC tCuda =
      .ok (tCuda.toDtype exactRnd ctxAC.autocastGpuDtype) :=
  (C3_cast_helper_cases exactRnd ctxAC tCuda).2.1 rfl rfl

/-- C8 counterexample: with autocast disabled and a device outside the cuda
and cpu classes, the helper returns the tensor unchanged; it does not raise
the not-implemented failure. -/
theorem C8_counterexample :
    _cast_if_autocast_enabled exactRnd ctxNoAC tXla = .ok tXla ∧
    _cast_if_autocast_enabled exactRnd ctxNoAC tXla ≠
      .error .notImplemented := by
  refine ⟨rfl, ?_⟩
  intro h
  cases h

/-- C8 amended: for every tensor whose device category is outside the cuda
and cpu classes, presenting it to the casting helper while autocast is
ENABLED deterministically raises the not-implemented failure. -/
theorem C8_amended_unsupported_device_fails {α : Type} [Field α]
    (rnd : DType → α → α) (ctx : TorchCtx) (t : Tensor α)
    (hac : ctx.autocastEnabled = true)
    (hcu : t.device ≠ .cuda) (hcp : t.device ≠ .cpu) :
    _cast_if_autocast_enabled rnd ctx t = .error .notImplemented := by
  unfold _cast_if_autocast_enabled
  simp [hac, hcu, hcp]

/-- C8 amended witness: the xla-device tensor fails under active autocast. -/
theorem C8_amended_witness :
    _cast_if_autocast_enabled exactRnd ctxAC tXla = .error .notImplemented :=
  C8_amended_unsupported_device_fails exactRnd ctxAC tXla rfl
    (by decide) (by decide)

theorem except_bind_ok {ε β γ : Type} {e : Except ε β} {g : β → Except ε γ}
    {y : γ} (h : e >>= g = .ok y) : ∃ a, e = .ok a ∧ g a = .ok y := by
  cases e with
  | error err => cases h
  | ok a => exact ⟨a, rfl, h⟩

theorem except_map_ok {ε β γ : Type} {f : β → γ} {e : Except ε β} {y : γ}
    (h : Except.map f e = .ok y) : ∃ a, e = .ok a ∧ y = f a := by
  cases e with
  | error err => cases h
  | ok a => exact ⟨a, rfl, by cases h; rfl⟩

/-- C2: every successful output of `RMSNorm.forward` and of
`LPRMSNorm.forward` has the dtype of the input `x`, on the pjrt fast path and
on the default path alike, whatever casts happen internally. -/
theorem C2_output_dtype_equals_input_dtype {α : Type} [Field α]
    (rsqrt : α → α) (rnd : DType → α → α) (ctx : TorchCtx) (st : RMSState α)
    (x y : Tensor α) :
    (RMSNorm.forward rsqrt rnd ctx st x = .ok y → y.dtype = x.dtype) ∧
    (LPRMSNorm.forward rsqrt rnd ctx st x = .ok y → y.dtype = x.dtype) := by
  constructor
  · intro h
    unfold RMSNorm.forward at h
    split at h <;>
    · obtain ⟨t, _, hy⟩ := except_map_ok h
      subst hy
      rfl
  · intro h
    unfold LPRMSNorm.forward at h
    split at h
    · obtain ⟨t, _, hy⟩ := except_map_ok h
      subst hy
      rfl
    · obtain ⟨dx, hdx, h⟩ := except_bind_ok h
      obtain ⟨dw, hdw, h⟩ := except_bind_ok h
      obtain ⟨t, _, hy⟩ := except_map_ok h
      subst hy
      rfl

/-- C2 witness: at a concrete float16 input, both forwards return a float16
result. -/
theorem C2_witness :
    (⟨[2], .float16, .cpu, [[75/2, 50]]⟩ : Tensor ℚ).dtype = tF16.dtype ∧
    (⟨[2], .float16, .cpu, [[75/2, 50]]⟩ : Tensor ℚ).dtype = tF16.dtype :=
  ⟨(C2_output_dtype_equals_input_dtype (fun a => a) exactRnd ctxNoAC
      ⟨0, none⟩ tF16 _).1 (by
        norm_num [RMSNorm.forward, rms_norm, Tensor.mul, Tensor.pow2,
          Tensor.meanLastKeepdim, Tensor.addScalar, Tensor.rsqrtT,
          Tensor.toDtype, ctxNoAC, tF16, exactRnd, Except.map, promote]),
   (C2_output_dtype_equals_input_dtype (fun a => a) exactRnd ctxNoAC
      ⟨0, none⟩ tF16 _).2 (by
        norm_num [LPRMSNorm.forward, rms_norm, castOpt,
          _cast_if_autocast_enabled, Tensor.mul, Tensor.pow2,
          Tensor.meanLastKeepdim, Tensor.addScalar, Tensor.rsqrtT,
          Tensor.toDtype, ctxNoAC, tF16, exactRnd, Except.map, Except.bind,
          Bind.bind, Pure.pure, Except.pure, promote])⟩

/-- C4: when pjrt is not active, `LPLayerNorm.forward` applies the casting
helper independently to `x`, to the weight if present and to the bias if
present, then calls the standard layer_norm primitive on those three casted
values with the stored normalized shape and eps, in a context whose autocast
flag is explicitly disabled, and returns that call's result unchanged. -/
theorem C4_lplayernorm_wiring {α : Type} [Field α] (F : LayerNormPrim α)
    (rnd : DType → α → α) (ctx : TorchCtx) (st : LNState α) (x dx : Tensor α)
    (dw db : Option (Tensor α))
    (hp : ctx.usingPjrt = false)
    (hx : _cast_if_autocast_enabled rnd ctx x = .ok dx)
    (hw : castOpt rnd ctx st.weight = .ok dw)
    (hb : castOpt rnd ctx st.bias = .ok db) :
    LPLayerNorm.forward F rnd ctx st x =
      .ok (F { ctx with autocastEnabled := false } dx st.normalized_shape
            dw db st.eps) := by
  unfold LPLayerNorm.forward
  simp [hp, hx, hw, hb, Bind.bind, Except.bind, Pure.pure, Except.pure]

/-- C4 witness: with autocast off, the casts are identities and the primitive
receives the original tensors under the autocast-suppressed context. -/
theorem C4_witness :
    LPLayerNorm.forward Fid exactRnd ctxNoAC ⟨[2], 0, none, none⟩ tF16 =
      .ok tF16 :=
  C4_lplayernorm_wiring Fid exactRnd ctxNoAC ⟨[2], 0, none, none⟩ tF16 tF16
    none none rfl rfl rfl rfl

theorem promote_float32_left (d : DType) : promote .float32 d = .float32 := by
  cases d <;> rfl

theorem promote_left_float32 (d : DType) : promote d .float32 = .float32 := by
  cases d <;> rfl

/-- The dtype of the `rsqrt(mean(x^2) + eps)` factor is the dtype of `x`. -/
theorem factor_dtype {α : Type} [Field α] (rsqrt : α → α) (x : Tensor α)
    (eps : α) :
    (((x.pow2.meanLastKeepdim).addScalar eps).rsqrtT rsqrt).dtype = x.dtype :=
  rfl

/-- Every successful `rms_norm` result on a float32 input is float32. -/
theorem rms_norm_float32 {α : Type} [Field α] {rsqrt : α → α} {x : Tensor α}
    {weight : Option (Tensor α)} {eps : α} {y : Tensor α}
    (hx : x.dtype = .float32)
    (h : rms_norm rsqrt x weight eps = .ok y) : y.dtype = .float32 := by
  unfold rms_norm at h
  cases hm : x.mul (((x.pow2.meanLastKeepdim).addScalar eps).rsqrtT rsqrt) with
  | error e => rw [hm] at h; cases h
  | ok out =>
    rw [hm] at h
    have hout : out.dtype = .float32 := by
      have := Tensor.mul_ok_dtype hm
      rw [factor_dtype, hx] at this
      exact this
    cases weight with
    | none => cases h; exact hout
    | some w =>
      simp only [Except.bind] at h
      have := Tensor.mul_ok_dtype h
      rw [hout, promote_float32_left] at this
      exact this

/-- C5: on the default (non-pjrt) path, `RMSNorm.forward` upcasts `x` to
float32, runs the `rms_norm` core at that full precision (every successful
core result carries dtype float32), and casts the result back to `x`'s
original dtype. -/
theorem C5_rmsnorm_default_path_full_precision {α : Type} [Field α]
    (rsqrt : α → α) (rnd : DType → α → α) (ctx : TorchCtx) (st : RMSState α)
    (x : Tensor α) (hp : ctx.usingPjrt = false) :
    RMSNorm.forward rsqrt rnd ctx st x =
      Except.map (fun t => t.toDtype rnd x.dtype)
        (rms_norm rsqrt (x.toDtype rnd .float32) st.weight st.eps) ∧
    (x.toDtype rnd .float32).dtype = .float32 ∧
    ∀ y, rms_norm rsqrt (x.toDtype rnd .float32) st.weight st.eps = .ok y →
      y.dtype = .float32 := by
  refine ⟨?_, rfl, fun y h => rms_norm_float32 rfl h⟩
  unfold RMSNorm.forward
  simp [hp]

/-- C5 witness: the default-path equation at a concrete input. -/
theorem C5_witness :
    RMSNorm.forward (fun a => a) exactRnd ctxNoAC (⟨0, none⟩ : RMSState ℚ)
        tF16 =
      Except.map (fun t => t.toDtype exactRnd tF16.dtype)
        (rms_norm (fun a => a) (tF16.toDtype exactRnd .float32) none 0) :=
  (C5_rmsnorm_default_path_full_precision (fun a => a) exactRnd ctxNoAC
    ⟨0, none⟩ tF16 rfl).1

/-- `rms_norm` with a weight is the unweighted `rms_norm` followed by exactly
one elementwise multiply with that weight. -/
theorem rms_norm_some_eq {α : Type} [Field α] (rsqrt : α → α) (x w : Tensor α)
    (eps : α) :
    rms_norm rsqrt x (some w) eps =
      (rms_norm rsqrt x none eps).bind (fun out => out.mul w) := by
  unfold rms_norm
  cases x.mul (((x.pow2.meanLastKeepdim).addScalar eps).rsqrtT rsqrt) <;> rfl

/-- C10: on the default (non-pjrt) path only `x` is upcast to float32; the
stored weight is handed to the `rms_norm` core at its original dtype,
unconverted, entering only at the final elementwise multiply, and the result
dtype of that multiply is the type promotion of the float32 core dtype with
the weight's own dtype. -/
theorem C10_weight_passed_unconverted {α : Type} [Field α]
    (rsqrt : α → α) (rnd : DType → α → α) (ctx : TorchCtx) (st : RMSState α)
    (x : Tensor α) (hp : ctx.usingPjrt = false) :
    RMSNorm.forward rsqrt rnd ctx st x =
      Except.map (fun t => t.toDtype rnd x.dtype)
        (rms_norm rsqrt (x.toDtype rnd .float32) st.weight st.eps) ∧
    (∀ w, st.weight = some w →
      rms_norm rsqrt (x.toDtype rnd .float32) (some w) st.eps =
        (rms_norm rsqrt (x.toDtype rnd .float32) none st.eps).bind
          (fun out => out.mul w)) ∧
    (∀ (out y w : Tensor α), out.mul w = .ok y →
      y.dtype = promote out.dtype w.dtype) ∧
    (∀ out, rms_norm rsqrt (x.toDtype rnd .float32) none st.eps = .ok out →
      out.dtype = .float32) := by
  refine ⟨?_, fun w _ => rms_norm_some_eq rsqrt _ w st.eps,
    fun out y w h => Tensor.mul_ok_dtype h,
    fun out h => rms_norm_float32 rfl h⟩
  unfold RMSNorm.forward
  simp [hp]

/-- C10 witness: the default-path equation at a concrete weighted module. -/
theorem C10_witness :
    RMSNorm.forward (fun a => a) exactRnd ctxNoAC
        (⟨0, some wF16⟩ : RMSState ℚ) tF16 =
      Except.map (fun t => t.toDtype exactRnd tF16.dtype)
        (rms_norm (fun a => a) (tF16.toDtype exactRnd .float32)
          (some wF16) 0) :=
  (C10_weight_passed_unconverted (fun a => a) exactRnd ctxNoAC
    ⟨0, some wF16⟩ tF16 rfl).1

theorem Tensor.retag_self {α : Type} (t : Tensor α) : t.retag t.dtype = t :=
  rfl

/-- When the rounding function is value-exact, `to(dtype)` only retags. -/
theorem Tensor.toDtype_exact {α : Type} [Field α] {rnd : DType → α → α}
    (hrnd : ∀ d a, rnd d a = a) (t : Tensor α) (d : DType) :
    t.toDtype rnd d = t.retag d := by
  have h : rnd d = id := funext (hrnd d)
  unfold Tensor.toDtype Tensor.retag
  rw [h]
  simp

theorem Tensor.mul_retag {α : Type} [Field α] (a b : Tensor α) (d e : DType) :
    (a.retag d).mul (b.retag e) =
      Except.map (fun t => t.retag (promote d e)) (a.mul b) := by
  simp only [Tensor.retag, Tensor.mul]
  split_ifs <;> rfl

theorem factor_retag {α : Type} [Field α] (rsqrt : α → α) (x : Tensor α)
    (eps : α) (d : DType) :
    (((x.retag d).pow2.meanLastKeepdim).addScalar eps).rsqrtT rsqrt =
      (((x.pow2.meanLastKeepdim).addScalar eps).rsqrtT rsqrt).retag d :=
  rfl

/-- Retagging the input dtype only retags the dtype of the `rms_norm` result;
the computed values do not depend on the dtype tag. -/
theorem rms_norm_retag {α : Type} [Field α] (rsqrt : α → α) (x : Tensor α)
    (w : Option (Tensor α)) (eps : α) (d : DType) :
    rms_norm rsqrt (x.retag d) w eps =
      Except.map (fun t => t.retag (match w with
          | none => promote d d
          | some wt => promote (promote d d) wt.dtype))
        (rms_norm rsqrt x w eps) := by
  unfold rms_norm
  rw [factor_retag, Tensor.mul_retag]
  cases x.mul (((x.pow2.meanLastKeepdim).addScalar eps).rsqrtT rsqrt) with
  | error e => cases w <;> rfl
  | ok out =>
    cases w with
    | none => rfl
    | some wt =>
      show (out.retag (promote d d)).mul wt =
        Except.map (fun t => t.retag (promote (promote d d) wt.dtype))
          (out.mul wt)
      conv_lhs => rw [← Tensor.retag_self wt]
      rw [Tensor.mul_retag]

/-- After the final cast back to `x.dtype`, the result of `rms_norm` on a
retagged input coincides with the result on the original input. -/
theorem rms_map_toDtype_retag {α : Type} [Field α] (rsqrt : α → α)
    (rnd : DType → α → α) (x : Tensor α) (w : Option (Tensor α)) (eps : α)
    (d : DType) :
    Except.map (fun t => t.toDtype rnd x.dtype)
        (rms_norm rsqrt (x.retag d) w eps) =
      Except.map (fun t => t.toDtype rnd x.dtype) (rms_norm rsqrt x w eps) := by
  rw [rms_norm_retag]
  cases rms_norm rsqrt x w eps <;> rfl

/-- With autocast inactive, `castOpt` is the identity. -/
theorem castOpt_noautocast {α : Type} [Field α] (rnd : DType → α → α)
    {ctx : TorchCtx} (hac : ctx.autocastEnabled = false)
    (ow : Option (Tensor α)) : castOpt rnd ctx ow = .ok ow := by
  cases ow <;> simp [castOpt, _cast_if_autocast_enabled, hac, Pure.pure,
    Except.pure, Except.map]

/-- C6: with autocast inactive and value-exact casts, the pjrt fast path and
the default path of `RMSNorm.forward` and of `LPRMSNorm.forward` produce the
same result; in particular `rms_norm(x, w, eps).to(x.dtype)` equals
`rms_norm(x.float(), w, eps).to(x.dtype)`. -/
theorem C6_fast_path_equals_default_path {α : Type} [Field α]
    (rsqrt : α → α) (rnd : DType → α → α) (ctx : TorchCtx) (st : RMSState α)
    (x : Tensor α)
    (hac : ctx.autocastEnabled = false)
    (hrnd : ∀ d a, rnd d a = a) :
    RMSNorm.forward rsqrt rnd { ctx with usingPjrt := true } st x =
      RMSNorm.forward rsqrt rnd { ctx with usingPjrt := false } st x ∧
    LPRMSNorm.forward rsqrt rnd { ctx with usingPjrt := true } st x =
      LPRMSNorm.forward rsqrt rnd { ctx with usingPjrt := false } st x ∧
    Except.map (fun t => t.toDtype rnd x.dtype)
        (rms_norm rsqrt x st.weight st.eps) =
      Except.map (fun t => t.toDtype rnd x.dtype)
        (rms_norm rsqrt (x.toDtype rnd .float32) st.weight st.eps) := by
  have hcore : Except.map (fun t => t.toDtype rnd x.dtype)
      (rms_norm rsqrt x st.weight st.eps) =
    Except.map (fun t => t.toDtype rnd x.dtype)
      (rms_norm rsqrt (x.toDtype rnd .float32) st.weight st.eps) := by
    rw [Tensor.toDtype_exact hrnd, rms_map_toDtype_retag]
  refine ⟨?_, ?_, hcore⟩
  · unfold RMSNorm.forward
    simpa using hcore
  · unfold LPRMSNorm.forward
    simp [_cast_if_autocast_enabled, hac, castOpt_noautocast, Bind.bind,
      Except.bind]

/-- C6 witness: both paths agree at a concrete input. -/
theorem C6_witness :
    RMSNorm.forward (fun a => a) exactRnd { ctxNoAC with usingPjrt := true }
        (⟨0, none⟩ : RMSState ℚ) tF16 =
      RMSNorm.forward (fun a => a) exactRnd { ctxNoAC with usingPjrt := false }
        ⟨0, none⟩ tF16 :=
  (C6_fast_path_equals_default_path (fun a => a) exactRnd ctxNoAC ⟨0, none⟩
    tF16 rfl (fun _ _ => rfl)).1

/-- A successful cast through the helper preserves the tensor's shape. -/
theorem cast_ok_shape {α : Type} [Field α] {rnd : DType → α → α}
    {ctx : TorchCtx} {t dx : Tensor α}
    (h : _cast_if_autocast_enabled rnd ctx t = .ok dx) : dx.shape = t.shape := by
  unfold _cast_if_autocast_enabled at h
  split at h
  · split at h
    · cases h; rfl
    · split at h
      · cases h; rfl
      · cases h
  · cases h; rfl

/-- C7: for every registry variant and every input, a successful `forward`
returns a tensor of the input's shape (the external layer_norm primitive
being shape-preserving, as the spec describes it). -/
theorem C7_forward_preserves_shape {α : Type} [Field α] (F : LayerNormPrim α)
    (rsqrt : α → α) (rnd : DType → α → α) (ctx : TorchCtx) (st : LNState α)
    (x : Tensor α)
    (hF : ∀ c t ns w b e, (F c t ns w b e).shape = t.shape) :
    ∀ p ∈ NORM_CLASS_REGISTRY, ∀ y,
      normForward p.2 F rsqrt rnd ctx st x = .ok y → y.shape = x.shape := by
  intro p hp y h
  fin_cases hp <;> dsimp only [normForward] at h
  · unfold LayerNorm.forward at h
    cases h
    exact hF _ _ _ _ _ _
  · unfold LPLayerNorm.forward at h
    split at h
    · cases h
      exact hF _ _ _ _ _ _
    · obtain ⟨dx, hdx, h⟩ := except_bind_ok h
      obtain ⟨dw, hdw, h⟩ := except_bind_ok h
      obtain ⟨db, hdb, h⟩ := except_bind_ok h
      cases h
      exact (hF _ _ _ _ _ _).trans (cast_ok_shape hdx)
  · unfold RMSNorm.forward at h
    split at h
    · obtain ⟨t, ht, hy⟩ := except_map_ok h
      subst hy
      exact (Tensor.toDtype_shape _ _ _).trans (rms_norm_ok_shape ht)
    · obtain ⟨t, ht, hy⟩ := except_map_ok h
      subst hy
      exact (Tensor.toDtype_shape _ _ _).trans
        ((rms_norm_ok_shape ht).trans (Tensor.toDtype_shape _ _ _))
  · unfold LPRMSNorm.forward at h
    split at h
    · obtain ⟨t, ht, hy⟩ := except_map_ok h
      subst hy
      exact (Tensor.toDtype_shape _ _ _).trans (rms_norm_ok_shape ht)
    · obtain ⟨dx, hdx, h⟩ := except_bind_ok h
      obtain ⟨dw, hdw, h⟩ := except_bind_ok h
      obtain ⟨t, ht, hy⟩ := except_map_ok h
      subst hy
      exact (Tensor.toDtype_shape _ _ _).trans
        ((rms_norm_ok_shape ht).trans (cast_ok_shape hdx))

/-- C7 witness: the rmsnorm registry entry preserves a concrete shape. -/
theorem C7_witness :
    (⟨[2], .float16, .cpu, [[75/2, 50]]⟩ : Tensor ℚ).shape = tF16.shape :=
  C7_forward_preserves_shape Fid (fun a => a) exactRnd ctxNoAC
    ⟨[2], 0, none, none⟩ tF16 (fun _ _ _ _ _ _ => rfl)
    ("rmsnorm", .rmsnorm) (by simp [NORM_CLASS_REGISTRY])
    ⟨[2], .float16, .cpu, [[75/2, 50]]⟩ (by
      norm_num [normForward, RMSNorm.forward, rms_norm, Tensor.mul,
        Tensor.pow2, Tensor.meanLastKeepdim, Tensor.addScalar, Tensor.rsqrtT,
        Tensor.toDtype, ctxNoAC, tF16, exactRnd, Except.map, promote])

/-- C9: for the concrete (2,4) input with every element 2.0, eps = 1e-5 and
the weight disabled, the per-row mean of squares computed inside `rms_norm`
is exactly 4, and every element of the output equals `2 * rsqrt(4.00001)`,
which is within 1e-6 of 0.999998. -/
theorem C9_concrete_scenario :
    ((⟨[2, 4], .float32, .cpu, [[2, 2, 2, 2], [2, 2, 2, 2]]⟩ :
        Tensor ℝ).pow2.meanLastKeepdim).rows = [[4], [4]] ∧
    ∃ c : ℝ, c = 2 * (Real.sqrt (4 + 1 / 100000))⁻¹ ∧
      rms_norm (fun r => (Real.sqrt r)⁻¹)
          ⟨[2, 4], .float32, .cpu, [[2, 2, 2, 2], [2, 2, 2, 2]]⟩ none
          (1 / 100000) =
        .ok ⟨[2, 4], .float32, .cpu, [[c, c, c, c], [c, c, c, c]]⟩ ∧
      |c - 0.999998| < 1 / 1000000 := by
  refine ⟨?_, 2 * (Real.sqrt (4 + 1 / 100000))⁻¹, rfl, ?_, ?_⟩
  · norm_num [Tensor.pow2, Tensor.meanLastKeepdim]
  · norm_num [rms_norm, Tensor.mul, Tensor.pow2, Tensor.meanLastKeepdim,
      Tensor.addScalar, Tensor.rsqrtT, Bind.bind, Except.bind, Pure.pure,
      Except.pure, Except.map, promote]
  · have hs0 : 0 < Real.sqrt (4 + 1 / 100000) :=
      Real.sqrt_pos.mpr (by norm_num)
    have h1 : (2.0000024 : ℝ) < Real.sqrt (4 + 1 / 100000) :=
      (Real.lt_sqrt (by norm_num)).mpr (by norm_num)
    have h2 : Real.sqrt (4 + 1 / 100000) < 2.0000025 :=
      (Real.sqrt_lt' (by norm_num)).mpr (by norm_num)
    have hinv0 : 0 < (Real.sqrt (4 + 1 / 100000))⁻¹ := inv_pos.mpr hs0
    have hmul : Real.sqrt (4 + 1 / 100000) *
        (Real.sqrt (4 + 1 / 100000))⁻¹ = 1 :=
      mul_inv_cancel₀ (ne_of_gt hs0)
    have hlow : (2.0000024 : ℝ) * (Real.sqrt (4 + 1 / 100000))⁻¹ < 1 := by
      calc (2.0000024 : ℝ) * (Real.sqrt (4 + 1 / 100000))⁻¹
          < Real.sqrt (4 + 1 / 100000) * (Real.sqrt (4 + 1 / 100000))⁻¹ :=
            mul_lt_mul_of_pos_right h1 hinv0
        _ = 1 := hmul
    have hhigh : 1 < (2.0000025 : ℝ) * (Real.sqrt (4 + 1 / 100000))⁻¹ := by
      calc (1:ℝ) = Real.sqrt (4 + 1 / 100000) *
            (Real.sqrt (4 + 1 / 100000))⁻¹ := hmul.symm
        _ < 2.0000025 * (Real.sqrt (4 + 1 / 100000))⁻¹ :=
            mul_lt_mul_of_pos_right h2 hinv0
    rw [abs_lt]
    constructor <;> nlinarith [hlow, hhigh]
